import Mathlib

/-!
Shallow embedding of `src/lambda/src/client.rs`: the transport `Client`
(one HTTP exchange, URI rewriting, full body buffering) and the
`EventStream` driver (a poll-based state machine holding at most one
in-flight exchange), together with theorems settling the specification
claims about them.
-/

namespace Lambda

/-- The opaque error type (`crate::Err`), modelled by its human-readable
description. -/
abbrev Err := String

/-- `bytes::Bytes` / `Vec<u8>`, modelled as a list of bytes. -/
abbrev Bytes := List Nat

/-- `http::Uri`, reduced to the three components the code touches:
scheme, authority and path-and-query, each possibly absent. -/
structure Uri where
  scheme : Option String
  authority : Option String
  path_and_query : Option String
deriving DecidableEq

/-- `http::Request<Bytes>`: method, URI, headers and body. -/
structure Request where
  method : String
  uri : Uri
  headers : List (String × String)
  body : Bytes
deriving DecidableEq

/-- The non-body parts of `http::Response` (status and headers). -/
structure ResponseParts where
  status : Nat
  headers : List (String × String)
deriving DecidableEq

/-- `http::Response<Bytes>` with a fully materialised body. -/
structure Response where
  status : Nat
  headers : List (String × String)
  body : Bytes
deriving DecidableEq

/-- `Response::from_parts(parts, body)`. -/
def Response.from_parts (p : ResponseParts) (b : Bytes) : Response :=
  { status := p.status, headers := p.headers, body := b }

/-- The transport `Client`: fixed scheme and authority. The owned hyper
connector is modelled separately as a transport oracle passed to `call`. -/
structure Client where
  scheme : String
  authority : String
deriving DecidableEq

/-- The observable outcome of `Client::call`: a Rust panic (from
`unwrap`), the opaque error, or a buffered response. -/
inductive CallResult where
  | panic (msg : String)
  | error (e : Err)
  | ok (res : Response)
deriving DecidableEq

/-- The underlying connector (`hyper::Client::request` plus the body
chunk stream): given the outgoing request it either fails (connection
failure) or yields response parts and the sequence of chunk-read
results, each chunk read being itself fallible. -/
abbrev Transport := Request → Except Err (ResponseParts × List (Except Err Bytes))

/-- The body accumulation loop of `Client::call` (lines 64-68):
`while let Some(Ok(chunk)) = body.next().await { buf.append(chunk) }`.
Successive `Ok` chunks are appended to the accumulator; the loop stops
at end-of-stream or at the first `Err` chunk, returning the bytes
accumulated so far. -/
def bufferBody : List (Except Err Bytes) → Bytes → Bytes
  | [], buf => buf
  | Except.ok chunk :: rest, buf => bufferBody rest (buf ++ chunk)
  | Except.error _ :: _, buf => buf

/-- The URI rewriting of `Client::call` (lines 45-53): take the
path-and-query of the caller URI (`unwrap` panics when absent, modelled
as `none`) and rebuild the URI from the fixed scheme and authority of
the client; all other request fields are carried over unchanged. -/
def Client.outgoing (c : Client) (req : Request) : Option Request :=
  match req.uri.path_and_query with
  | none => none
  | some pq =>
      some { req with
              uri := { scheme := some c.scheme
                     , authority := some c.authority
                     , path_and_query := some pq } }

/-- `EventClient::call` for `Client` (lines 41-75): rewrite the URI
(panicking when the caller URI has no path-and-query), perform the
exchange through the connector, propagate a connection failure as the
opaque error, and otherwise buffer the body chunks and rebuild the
response from the original parts and the buffered bytes. -/
def Client.call (c : Client) (transport : Transport) (req : Request) : CallResult :=
  match c.outgoing req with
  | none => CallResult.panic "called Option::unwrap on a None value"
  | some outReq =>
      match transport outReq with
      | Except.error e => CallResult.error e
      | Except.ok (parts, chunks) =>
          CallResult.ok (Response.from_parts parts (bufferBody chunks []))

/-! ## The event stream state machine -/

deriving instance DecidableEq for Except

/-- An exchange outcome: `Result<Response<Bytes>, Err>`. -/
abbrev Outcome := Except Err Response

/-- The state of an `EventStream`: the in-flight slot `current` holds
the index of the unresolved exchange (exchanges are numbered in order
of issue), or nothing; `callsIssued` counts how many times the
capability `call` operation has been invoked. -/
structure StreamState where
  current : Option Nat
  callsIssued : Nat
deriving DecidableEq

/-- `EventStream::new`: empty in-flight slot, no calls issued yet. -/
def EventStream.new : StreamState :=
  { current := none, callsIssued := 0 }

/-- The fixed request built by `EventStream::next_event` (lines
105-112): method GET, URI `/runtime/invocation/next`, empty body. -/
def nextEventRequest : Request :=
  { method := "GET"
  , uri := { scheme := none
           , authority := none
           , path_and_query := some "/runtime/invocation/next" }
  , headers := []
  , body := [] }

/-- `self.current = Some(self.next_event())`: invoke the capability for
the next exchange and store it in the in-flight slot. -/
def issueNext (s : StreamState) : StreamState :=
  { current := some s.callsIssued, callsIssued := s.callsIssued + 1 }

/-- The first pass of the `poll_next` loop: if the slot is empty, issue
a new exchange (the `else` branch, line 145) and loop; either way the
pass ends with the index of the held exchange and the updated state. -/
def currentOf (s : StreamState) : Nat × StreamState :=
  match s.current with
  | some i => (i, s)
  | none => (s.callsIssued, issueNext s)

/-- The result of one `poll_next` call: `Poll::Pending`, or
`Poll::Ready(item)` where `item = none` would signal end-of-stream. -/
inductive PollResult where
  | pending
  | ready (item : Option Outcome)
deriving DecidableEq

/-- The polling environment for one `poll_next` call: for each exchange
index, whether polling that exchange now returns `Poll::Ready` with an
outcome, or `Poll::Pending`. -/
abbrev Resolver := Nat → Option Outcome

/-- `EventStream::poll_next` (lines 122-148): ensure an exchange is
held (issuing one when the slot was empty, within the same pull), poll
it; on `Ready(res)` issue and store the next exchange, then return
`Ready(Some(res))`; on `Pending` leave the state unchanged. -/
def poll_next (resolve : Resolver) (s : StreamState) : StreamState × PollResult :=
  let p := currentOf s
  match resolve p.1 with
  | some res => (issueNext p.2, PollResult.ready (some res))
  | none => (p.2, PollResult.pending)

/-- A consumer-side run: the stream state plus the number of items the
stream has yielded so far. -/
structure RunState where
  stream : StreamState
  yielded : Nat
deriving DecidableEq

/-- The initial run: a fresh stream, nothing yielded. -/
def RunState.init : RunState :=
  { stream := EventStream.new, yielded := 0 }

/-- How many items one poll result delivers (one on `Ready(Some _)`,
zero otherwise). -/
def yieldCount : PollResult → Nat
  | PollResult.ready (some _) => 1
  | _ => 0

/-- One consumer pull: run `poll_next` under the given polling
environment and count any yielded item. -/
def stepRun (r : RunState) (resolve : Resolver) : RunState :=
  let sp := poll_next resolve r.stream
  { stream := sp.1, yielded := r.yielded + yieldCount sp.2 }

/-- Run a sequence of pulls from a given run state. -/
def runFrom (r : RunState) : List Resolver → RunState
  | [] => r
  | o :: os => runFrom (stepRun r o) os

/-- Run a sequence of pulls from a fresh stream. -/
def runTrace (t : List Resolver) : RunState :=
  runFrom RunState.init t

/-- The run invariant established by the first pull and preserved ever
after: the slot holds exactly the exchange numbered by the yield count,
and the number of calls issued exceeds the number of items yielded by
exactly one. -/
def GoodRun (r : RunState) : Prop :=
  r.stream.current = some r.yielded ∧ r.stream.callsIssued = r.yielded + 1

lemma goodRun_step (r : RunState) (o : Resolver) (h : GoodRun r) :
    GoodRun (stepRun r o) := by
  obtain ⟨⟨c, n⟩, y⟩ := r
  obtain ⟨h1, h2⟩ := h
  simp only at h1 h2
  subst h1 h2
  cases hres : o y with
  | none =>
      simp [GoodRun, stepRun, poll_next, currentOf, yieldCount, hres]
  | some res =>
      simp [GoodRun, stepRun, poll_next, currentOf, issueNext, yieldCount, hres]

lemma goodRun_first (o : Resolver) : GoodRun (stepRun RunState.init o) := by
  cases hres : o 0 with
  | none =>
      simp [GoodRun, stepRun, RunState.init, EventStream.new, poll_next,
            currentOf, issueNext, yieldCount, hres]
  | some res =>
      simp [GoodRun, stepRun, RunState.init, EventStream.new, poll_next,
            currentOf, issueNext, yieldCount, hres]

lemma goodRun_runFrom (r : RunState) (os : List Resolver) (h : GoodRun r) :
    GoodRun (runFrom r os) := by
  induction os generalizing r with
  | nil => exact h
  | cons o os ih => exact ih _ (goodRun_step r o h)

lemma goodRun_runTrace (t : List Resolver) (h : t ≠ []) :
    GoodRun (runTrace t) := by
  match t with
  | [] => exact absurd rfl h
  | o :: os => exact goodRun_runFrom _ os (goodRun_first o)

/-! ## Claim theorems: the event stream -/

/-- C9: for every state of the stream and every polling environment, a
pull returns either pending or a produced item; the stream never
signals end-of-sequence (`Poll::Ready(None)`), so the sequence is
infinite. -/
theorem poll_next_never_terminates (resolve : Resolver) (s : StreamState) :
    (poll_next resolve s).2 ≠ PollResult.ready none := by
  unfold poll_next
  cases h : resolve (currentOf s).1 <;> simp [h]

/-- C9 witness: at a concrete state and environment, the pull result is
not end-of-sequence. -/
theorem poll_next_never_terminates_w :
    (poll_next (fun _ => none) EventStream.new).2 ≠ PollResult.ready none :=
  poll_next_never_terminates (fun _ => none) EventStream.new

/-- C5: the pull transition algorithm. (1) A pull in the Idle state
issues a new exchange, moves to Active and attempts to resolve it in
the same pull: when it resolves it reports a produced value (never
pending merely because the state was Idle), and when it does not the
pull reports pending with the fresh exchange held. (2) A pull in the
Active state with an unresolved exchange reports pending and leaves
the state unchanged. (3) When the held exchange resolves, the next
exchange is issued and stored in the returned state, and the pull
reports a produced value carrying the resolved outcome. -/
theorem poll_next_transitions :
    (∀ (resolve : Resolver) (n : Nat) (res : Outcome), resolve n = some res →
        poll_next resolve ⟨none, n⟩ =
          (⟨some (n + 1), n + 2⟩, PollResult.ready (some res)))
    ∧ (∀ (resolve : Resolver) (n : Nat), resolve n = none →
        poll_next resolve ⟨none, n⟩ = (⟨some n, n + 1⟩, PollResult.pending))
    ∧ (∀ (resolve : Resolver) (s : StreamState) (i : Nat),
        s.current = some i → resolve i = none →
        poll_next resolve s = (s, PollResult.pending))
    ∧ (∀ (resolve : Resolver) (s : StreamState) (i : Nat) (res : Outcome),
        s.current = some i → resolve i = some res →
        poll_next resolve s =
          (⟨some s.callsIssued, s.callsIssued + 1⟩, PollResult.ready (some res))) := by
  refine ⟨?_, ?_, ?_, ?_⟩
  · intro resolve n res h
    simp [poll_next, currentOf, issueNext, h]
  · intro resolve n h
    simp [poll_next, currentOf, issueNext, h]
  · intro resolve s i hc h
    obtain ⟨c, n⟩ := s
    simp only at hc
    subst hc
    simp [poll_next, currentOf, h]
  · intro resolve s i res hc h
    obtain ⟨c, n⟩ := s
    simp only at hc
    subst hc
    simp [poll_next, currentOf, issueNext, h]

/-- C5 witness: the transitions at concrete inputs — an Idle pull that
resolves in the same pull, and an Active pull whose exchange is not
ready. -/
theorem poll_next_transitions_w :
    poll_next (fun _ => some (Except.error "boom")) ⟨none, 0⟩ =
      (⟨some 1, 2⟩, PollResult.ready (some (Except.error "boom")))
    ∧ poll_next (fun _ => none) ⟨some 5, 6⟩ = (⟨some 5, 6⟩, PollResult.pending) :=
  ⟨poll_next_transitions.1 (fun _ => some (Except.error "boom")) 0 (Except.error "boom") rfl,
   poll_next_transitions.2.2.1 (fun _ => none) ⟨some 5, 6⟩ 5 rfl rfl⟩

/-- C2: prefetch invariant. At every point after the first yield (in
fact after any point of a pull history whose yield count is positive),
the number of capability calls issued equals the number of items
yielded plus one, and the in-flight slot holds the exchange for the
next item — so immediately after the k-th item is yielded, the call
for the (k+1)-th exchange has already been invoked. -/
theorem prefetch_invariant (t : List Resolver)
    (h : 1 ≤ (runTrace t).yielded) :
    (runTrace t).stream.callsIssued = (runTrace t).yielded + 1
    ∧ (runTrace t).stream.current = some (runTrace t).yielded := by
  match t with
  | [] =>
      simp [runTrace, runFrom, RunState.init] at h
  | o :: os =>
      have hg := goodRun_runFrom _ os (goodRun_first o)
      exact ⟨hg.2, hg.1⟩

/-- C2 witness: after a single pull whose exchange resolves at once,
one item has been yielded, two calls have been issued, and the second
exchange is in flight. -/
theorem prefetch_invariant_w :
    (runTrace [fun _ => some (Except.error "e")]).stream.callsIssued =
      (runTrace [fun _ => some (Except.error "e")]).yielded + 1
    ∧ (runTrace [fun _ => some (Except.error "e")]).stream.current =
      some (runTrace [fun _ => some (Except.error "e")]).yielded :=
  prefetch_invariant [fun _ => some (Except.error "e")] (by decide)

/-- C4: error transparency. When the held exchange resolves to an
error, the pull yields that error as an item (not termination) and
stores a freshly issued exchange, exactly as after a success; a
subsequent pull whose environment resolves that new exchange to a
success yields the success. -/
theorem error_transparency (resolve resolve2 : Resolver) (s : StreamState)
    (i : Nat) (e : Err) (r : Response)
    (hc : s.current = some i) (hr : resolve i = some (Except.error e))
    (hr2 : resolve2 s.callsIssued = some (Except.ok r)) :
    poll_next resolve s = (issueNext s, PollResult.ready (some (Except.error e)))
    ∧ (poll_next resolve2 (poll_next resolve s).1).2 =
        PollResult.ready (some (Except.ok r)) := by
  obtain ⟨c, n⟩ := s
  simp only at hc hr2
  subst hc
  constructor
  · simp [poll_next, currentOf, issueNext, hr]
  · simp [poll_next, currentOf, issueNext, hr, hr2]

/-- C4 witness: a concrete error outcome is yielded as an item and the
next pull yields a concrete success. -/
theorem error_transparency_w :
    poll_next (fun _ => some (Except.error "reset")) ⟨some 0, 1⟩ =
      (issueNext ⟨some 0, 1⟩, PollResult.ready (some (Except.error "reset")))
    ∧ (poll_next (fun _ => some (Except.ok ⟨200, [], []⟩))
        (poll_next (fun _ => some (Except.error "reset")) ⟨some 0, 1⟩).1).2 =
        PollResult.ready (some (Except.ok ⟨200, [], []⟩)) :=
  error_transparency (fun _ => some (Except.error "reset"))
    (fun _ => some (Except.ok ⟨200, [], []⟩)) ⟨some 0, 1⟩ 0 "reset"
    ⟨200, [], []⟩ rfl rfl rfl

/-- C8: in-flight slot invariant. The slot (an optional value) holds at
most one exchange by construction; before the very first pull it is
empty, and after any nonempty pull history it holds exactly one
exchange — the one issued immediately after the last resolution,
namely exchange number `yielded`. -/
theorem slot_invariant :
    EventStream.new.current = none
    ∧ ∀ (t : List Resolver), t ≠ [] →
        (runTrace t).stream.current = some (runTrace t).yielded := by
  refine ⟨rfl, ?_⟩
  intro t ht
  exact (goodRun_runTrace t ht).1

/-- C8 witness: after one pull that stays pending, the slot holds
exchange 0 and nothing has been yielded. -/
theorem slot_invariant_w :
    (runTrace [fun _ => none]).stream.current =
      some (runTrace [fun _ => none]).yielded :=
  slot_invariant.2 [fun _ => none] (List.cons_ne_nil _ _)

/-! ## Claim theorems: the transport client -/

lemma bufferBody_map_ok (cs : List Bytes) (buf : Bytes) :
    bufferBody (cs.map Except.ok) buf = buf ++ cs.flatten := by
  induction cs generalizing buf with
  | nil => simp [bufferBody]
  | cons c cs ih => simp [bufferBody, ih, List.append_assoc]

/-- C7: URI rewriting. For every caller request whose URI has a
path-and-query, the outgoing request carries exactly the fixed scheme
and authority of the client (the caller values are discarded), the
path-and-query of the caller URI unchanged, and the same method,
headers and body as the caller request. -/
theorem uri_rewriting (c : Client) (req : Request) (pq : String)
    (h : req.uri.path_and_query = some pq) :
    Client.outgoing c req = some
      { method := req.method
      , uri := { scheme := some c.scheme
               , authority := some c.authority
               , path_and_query := some pq }
      , headers := req.headers
      , body := req.body } := by
  obtain ⟨m, u, hd, b⟩ := req
  simp only at h
  simp [Client.outgoing, h]

/-- C7 witness: for scheme https and authority example.com, a caller
request with path-and-query /foo?bar=1 is rewritten exactly as the
claim states. -/
theorem uri_rewriting_w :
    Client.outgoing ⟨"https", "example.com"⟩
        ⟨"GET", ⟨some "http", some "localhost", some "/foo?bar=1"⟩,
          [("x-h", "v")], [1, 2]⟩
      = some ⟨"GET", ⟨some "https", some "example.com", some "/foo?bar=1"⟩,
          [("x-h", "v")], [1, 2]⟩ :=
  uri_rewriting ⟨"https", "example.com"⟩
    ⟨"GET", ⟨some "http", some "localhost", some "/foo?bar=1"⟩,
      [("x-h", "v")], [1, 2]⟩ "/foo?bar=1" rfl

/-- C10: frame effect on the response. Whenever the underlying
transport yields a response, the call returns a response whose status
and headers are exactly those of the transport response, and only the
body is replaced by the buffered bytes. -/
theorem response_parts_preserved (c : Client) (transport : Transport)
    (req outReq : Request) (parts : ResponseParts)
    (chunks : List (Except Err Bytes))
    (hout : Client.outgoing c req = some outReq)
    (ht : transport outReq = Except.ok (parts, chunks)) :
    Client.call c transport req =
      CallResult.ok { status := parts.status
                    , headers := parts.headers
                    , body := bufferBody chunks [] } := by
  simp [Client.call, hout, ht, Response.from_parts]

/-- C10 witness: a concrete transport response with status 202 and one
header comes back with the same status and headers and the buffered
body. -/
theorem response_parts_preserved_w :
    Client.call ⟨"http", "127.0.0.1:9001"⟩
        (fun _ => Except.ok (⟨202, [("content-type", "json")]⟩,
          [Except.ok [104, 105]]))
        nextEventRequest
      = CallResult.ok ⟨202, [("content-type", "json")], [104, 105]⟩ :=
  response_parts_preserved ⟨"http", "127.0.0.1:9001"⟩
    (fun _ => Except.ok (⟨202, [("content-type", "json")]⟩,
      [Except.ok [104, 105]]))
    nextEventRequest
    ⟨"GET", ⟨some "http", some "127.0.0.1:9001", some "/runtime/invocation/next"⟩,
      [], []⟩
    ⟨202, [("content-type", "json")]⟩ [Except.ok [104, 105]] rfl rfl

/-- Success-path reassembly (supporting theorem, not a claim): when the
transport delivers the body as a sequence of successfully read chunks,
the call returns the response whose body is the byte-for-byte
concatenation of the chunks in arrival order. When a chunk read fails
the body is instead truncated; see the C6 theorem below. -/
theorem body_reassembly (c : Client) (transport : Transport)
    (req outReq : Request) (parts : ResponseParts) (cs : List Bytes)
    (hout : Client.outgoing c req = some outReq)
    (ht : transport outReq = Except.ok (parts, cs.map Except.ok)) :
    Client.call c transport req =
      CallResult.ok (Response.from_parts parts cs.flatten) := by
  simp [Client.call, hout, ht, Response.from_parts, bufferBody_map_ok]

/-- Instance of the success-path reassembly: the chunks "ab", "cd",
"ef" (bytes 97-102) reassemble to the single buffer "abcdef". -/
theorem body_reassembly_w :
    Client.call ⟨"http", "127.0.0.1:9001"⟩
        (fun _ => Except.ok (⟨200, []⟩,
          [[97, 98], [99, 100], [101, 102]].map Except.ok))
        nextEventRequest
      = CallResult.ok ⟨200, [], [97, 98, 99, 100, 101, 102]⟩ :=
  body_reassembly ⟨"http", "127.0.0.1:9001"⟩
    (fun _ => Except.ok (⟨200, []⟩,
      [[97, 98], [99, 100], [101, 102]].map Except.ok))
    nextEventRequest
    ⟨"GET", ⟨some "http", some "127.0.0.1:9001", some "/runtime/invocation/next"⟩,
      [], []⟩
    ⟨200, []⟩ [[97, 98], [99, 100], [101, 102]] rfl rfl

/-- C3 counterexample: the claim that every failure inside the call
surfaces as the opaque error value, never as a panic, is false: a
caller request whose URI has no path-and-query makes the call panic
(the `unwrap` on line 46), before the transport is ever consulted. -/
theorem call_panics_without_pq :
    Client.call ⟨"http", "127.0.0.1:9001"⟩ (fun _ => Except.error "unused")
        ⟨"GET", ⟨some "http", some "example.com", none⟩, [], []⟩
      = CallResult.panic "called Option::unwrap on a None value" := rfl

/-- C3 amended: for every caller request whose URI has a path-and-query,
the call never panics — it returns either the opaque error (carrying
the transport failure description) or a response; a request without a
path-and-query instead panics. -/
theorem call_no_panic_with_pq (c : Client) (transport : Transport)
    (req : Request) (h : req.uri.path_and_query.isSome) :
    (∃ e, Client.call c transport req = CallResult.error e)
    ∨ (∃ r, Client.call c transport req = CallResult.ok r) := by
  obtain ⟨pq, hpq⟩ := Option.isSome_iff_exists.mp h
  cases hres : transport { req with
      uri := { scheme := some c.scheme
             , authority := some c.authority
             , path_and_query := some pq } } with
  | error e =>
      exact Or.inl ⟨e, by simp [Client.call, Client.outgoing, hpq, hres]⟩
  | ok pc =>
      obtain ⟨parts, chunks⟩ := pc
      exact Or.inr ⟨Response.from_parts parts (bufferBody chunks []),
        by simp [Client.call, Client.outgoing, hpq, hres]⟩

/-- C3 amended witness: with a path-and-query present and a failing
transport, the call resolves to the opaque error rather than a panic. -/
theorem call_no_panic_with_pq_w :
    (∃ e, Client.call ⟨"http", "127.0.0.1:9001"⟩
        (fun _ => Except.error "connection refused") nextEventRequest
        = CallResult.error e)
    ∨ (∃ r, Client.call ⟨"http", "127.0.0.1:9001"⟩
        (fun _ => Except.error "connection refused") nextEventRequest
        = CallResult.ok r) :=
  call_no_panic_with_pq ⟨"http", "127.0.0.1:9001"⟩
    (fun _ => Except.error "connection refused") nextEventRequest rfl

/-- C6: the claim says a response value is never delivered with a
partially-read body and that the body is always the full chunk
concatenation; the code falsifies this: when a chunk read fails after
the chunks "ab" and "cd" have arrived, the call delivers a success
response whose body holds only the bytes read before the failure —
a partially-read body handed to the consumer as a complete response. -/
theorem partial_body_delivered :
    Client.call ⟨"http", "127.0.0.1:9001"⟩
        (fun _ => Except.ok (⟨200, []⟩,
          [Except.ok [97, 98], Except.ok [99, 100],
           Except.error "reset"]))
        nextEventRequest
      = CallResult.ok ⟨200, [], [97, 98, 99, 100]⟩ := rfl

/-- C1: the claim says a chunk-read failure aborts the call with the
generic error instead of returning a response; the code instead leaves
the `while let Some(Ok(chunk))` loop on the first failed chunk read
and returns a success response whose body holds only the bytes
accumulated before the failure (later chunks are dropped as well). -/
theorem chunk_error_yields_truncated_success :
    Client.call ⟨"http", "127.0.0.1:9001"⟩
        (fun _ => Except.ok (⟨200, []⟩,
          [Except.ok [97, 98], Except.error "connection reset",
           Except.ok [99, 100]]))
        nextEventRequest
      = CallResult.ok ⟨200, [], [97, 98]⟩ := rfl

end Lambda
